import Mathlib

/-
Verification of the field-mapping and schema-adaptation logic of the
JSON-to-Notion uploader.

The repository has two entry points with near-duplicate mapping logic:
 * `json_notion_webapp.py` — class `NotionUploader` with `test_connection`,
   `upload_person`, `_build_properties`, `_format_phone`, and a batch loop
   in `main` over a list of records;
 * the unnamed file (`file to notion.py`) — free functions
   `upload_to_notion`, `_build_properties`, `_format_phone`.

The embedding below translates that Python code shallowly:
 * a record value fetched with `dict.get` is `Option String`
   (`none` = key absent or value null; Python treats both as `None`);
   the record itself keeps the three-way distinction (`FieldVal`) because
   the webapp reads `person_data["이름"]` directly, where an absent key
   raises `KeyError` while a null one stringifies to `"None"`;
 * Python dicts built with distinct fixed keys become association lists
   in insertion order;
 * remote calls become function parameters returning `Except String _`
   (`.error e` = the call raised an exception whose `str` is `e`);
 * `str.isdigit` / `str.strip` are modelled by `Char.isDigit` /
   whitespace trimming on `List Char` (the inputs of interest are plain
   ASCII-plus-Hangul text, where the two agree).
-/

namespace JsonNotion

/-- A raw-record field: absent key, JSON null, or a string value.
Python's `dict.get` collapses the first two to `None`. -/
inductive FieldVal where
  | absent
  | null
  | str (s : String)
deriving DecidableEq

/-- `person_data.get(key)` — absent and null both read as `None`. -/
def fvGet : FieldVal → Option String
  | .str s => some s
  | _ => none

/-- Python `str(value)` for a value that was fetched from the record:
`str(None) = "None"`, a string stringifies to itself. -/
def fvToStr : FieldVal → String
  | .str s => s
  | _ => "None"

/-- Python truthiness of a fetched value: `None` and `""` are falsy. -/
def isTruthy : Option String → Bool
  | some s => decide (s ≠ "")
  | none => false

/-- Python `a or b` on two fetched values: `b` when `a` is falsy. -/
def pyOr (a b : Option String) : Option String :=
  if isTruthy a then a else b

/-- The raw record, with one field per Korean key the source reads.
Absent-by-default mirrors a dict without the key. -/
structure RawRecord where
  /-- `"이름"` (name) -/
  name : FieldVal := .absent
  /-- `"나이(탄생연도)"` (age, legacy spelling; read only by the webapp) -/
  ageBirthParen : FieldVal := .absent
  /-- `"나이/탄생연도"` (age, canonical spelling) -/
  ageBirthSlash : FieldVal := .absent
  /-- `"성별"` (gender) -/
  gender : FieldVal := .absent
  /-- `"총경력"` (total experience) -/
  career : FieldVal := .absent
  /-- `"최종학력(학교-전공)"` (education, legacy spelling; webapp only) -/
  eduSchoolMajor : FieldVal := .absent
  /-- `"최종학력(전공)"` (education, canonical spelling) -/
  eduMajor : FieldVal := .absent
  /-- `"최종직장"` (last employer) -/
  lastJob : FieldVal := .absent
  /-- `"직급/주요업무"` (title / duties) -/
  duty : FieldVal := .absent
  /-- `"전화번호"` (phone) -/
  phone : FieldVal := .absent
  /-- `"이메일"` (email) -/
  email : FieldVal := .absent
  /-- `"핵심역량"` (core skills) -/
  skills : FieldVal := .absent
  /-- `"포지션"` (target position) -/
  position : FieldVal := .absent
deriving DecidableEq

/-- A Notion property payload, one constructor per JSON shape the source
builds: `{"title":[{"text":{"content":c}}]}`, `{"email":s}`,
`{"phone_number":s}`, `{"rich_text":[{"text":{"content":c}}]}`,
`{"select":{"name":s}}`, `{"multi_select":[{"name":n},...]}`. -/
inductive PropValue where
  | title (content : String)
  | email (s : String)
  | phoneNumber (s : String)
  | richText (content : String)
  | select (nm : String)
  | multiSelect (names : List String)
deriving DecidableEq

/-- The destination schema: `db_info['properties']` reduced to the only
part the source reads, the field name → type-name mapping. -/
def Schema : Type := List (String × String)

/-- The mapper's output dict: field name → payload, in insertion order
(all keys the source writes are distinct, so no overwrites occur). -/
def PropSet : Type := List (String × PropValue)

/-- `''.join(filter(str.isdigit, str(phone)))`, as a character list. -/
def digitsOf (s : String) : List Char :=
  s.data.filter Char.isDigit

/-- `_format_phone` (identical in both source files): strip non-digits;
an 11-digit string starting `010` is reformatted `XXX-XXXX-XXXX`
(`[:3]`, `[3:7]`, `[7:]`); anything else returns the input unchanged. -/
def formatPhone (s : String) : String :=
  if (digitsOf s).length = 11 ∧ (digitsOf s).take 3 = ['0', '1', '0'] then
    String.mk ((digitsOf s).take 3) ++ "-"
      ++ String.mk (((digitsOf s).drop 3).take 4) ++ "-"
      ++ String.mk ((digitsOf s).drop 7)
  else s

/-- Python `str.strip()` on a character list: drop leading and trailing
whitespace. -/
def pystrip (l : List Char) : List Char :=
  ((l.dropWhile Char.isWhitespace).reverse.dropWhile Char.isWhitespace).reverse

/-- `[v.strip() for v in str(value).split(',')]` filtered by truthiness,
as in the `multi_select` arm of both `_build_properties`. -/
def splitPositions (s : String) : List String :=
  (((s.data.splitOn ',').map pystrip).filter (fun l => l ≠ [])).map String.mk

/-- One guarded dict store `if value: properties[k] = mk(value)` for the
email/phone pattern of `_build_properties` (no schema consultation). -/
def optEntry (o : Option String) (k : String) (mk : String → PropValue) :
    List (String × PropValue) :=
  match o with
  | some s => if s = "" then [] else [(k, mk s)]
  | none => []

/-- One iteration of the select-fields loop:
`if value and field in props and props[field]['type'] == 'select'`. -/
def selectEntry (schema : List (String × String)) (k : String)
    (o : Option String) : List (String × PropValue) :=
  match o with
  | some s =>
    if s = "" then []
    else
      match schema.lookup k with
      | some ty => if ty = "select" then [(k, PropValue.select s)] else []
      | none => []
  | none => []

/-- One iteration of the rich-text-fields loop: `rich_text` wraps the
string; `multi_select` (only for the `"포지션"` field) splits on commas,
strips, and drops empty segments; any other declared type is skipped. -/
def richEntry (schema : List (String × String)) (k : String)
    (o : Option String) : List (String × PropValue) :=
  match o with
  | some s =>
    if s = "" then []
    else
      match schema.lookup k with
      | some ty =>
        if ty = "rich_text" then [(k, PropValue.richText s)]
        else if ty = "multi_select" ∧ k = "포지션" then
          [(k, PropValue.multiSelect (splitPositions s))]
        else []
      | none => []
  | none => []

/-- The unconditional title store of the webapp `_build_properties`:
`properties["이름"] = {"title":[{"text":{"content": str(person_data["이름"])}}]}`. -/
def titleEntry (v : FieldVal) : List (String × PropValue) :=
  [("이름", PropValue.title (fvToStr v))]

/-- Body of `NotionUploader._build_properties` (webapp), in source order.
The phone `try/except` stores to a dict, which cannot raise, so only the
`phone_number` branch is ever executed; the `rich_text` fallback is dead
code and has no counterpart here.  The age and education values are taken
from the legacy key `or` the canonical key. -/
def webappProps (r : RawRecord) (schema : List (String × String)) :
    List (String × PropValue) :=
  titleEntry r.name
    ++ optEntry (fvGet r.email) "이메일" PropValue.email
    ++ optEntry (fvGet r.phone) "전화번호"
        (fun s => PropValue.phoneNumber (formatPhone s))
    ++ selectEntry schema "나이/탄생연도"
        (pyOr (fvGet r.ageBirthParen) (fvGet r.ageBirthSlash))
    ++ selectEntry schema "성별" (fvGet r.gender)
    ++ richEntry schema "총경력" (fvGet r.career)
    ++ richEntry schema "최종학력(전공)"
        (pyOr (fvGet r.eduSchoolMajor) (fvGet r.eduMajor))
    ++ richEntry schema "최종직장" (fvGet r.lastJob)
    ++ richEntry schema "직급/주요업무" (fvGet r.duty)
    ++ richEntry schema "핵심역량" (fvGet r.skills)
    ++ richEntry schema "포지션" (fvGet r.position)

/-- `NotionUploader._build_properties` as a fallible call: with the name
key absent, `person_data["이름"]` raises `KeyError` (`none`); otherwise
the property dict is built. -/
def webappBuildProps (r : RawRecord) (schema : List (String × String)) :
    Option (List (String × PropValue)) :=
  match r.name with
  | .absent => none
  | _ => some (webappProps r schema)

/-- Body of `_build_properties` in the unnamed file, in source order.
Identical to the webapp version except: the title is guarded by
`if person_data.get("이름")` (a nameless record just omits it), and only
the canonical age/education keys are consulted. -/
def part000Props (r : RawRecord) (schema : List (String × String)) :
    List (String × PropValue) :=
  optEntry (fvGet r.name) "이름" PropValue.title
    ++ optEntry (fvGet r.email) "이메일" PropValue.email
    ++ optEntry (fvGet r.phone) "전화번호"
        (fun s => PropValue.phoneNumber (formatPhone s))
    ++ selectEntry schema "나이/탄생연도" (fvGet r.ageBirthSlash)
    ++ selectEntry schema "성별" (fvGet r.gender)
    ++ richEntry schema "총경력" (fvGet r.career)
    ++ richEntry schema "최종학력(전공)" (fvGet r.eduMajor)
    ++ richEntry schema "최종직장" (fvGet r.lastJob)
    ++ richEntry schema "직급/주요업무" (fvGet r.duty)
    ++ richEntry schema "핵심역량" (fvGet r.skills)
    ++ richEntry schema "포지션" (fvGet r.position)

/-- `NotionUploader.upload_person`: inside one `try`, reject a record
whose fetched name is falsy with the fixed missing-name message; build
the properties; run the remote create; report success with the quoted
name or convert any raised exception `e` to
`(False, "업로드 실패: " + str(e))`.  The `KeyError` branch is
unreachable once the truthiness guard has passed. -/
def uploadPerson (schema : List (String × String))
    (remote : List (String × PropValue) → Except String Unit)
    (r : RawRecord) : Bool × String :=
  if isTruthy (fvGet r.name) = false then
    (false, "이름이 없는 데이터입니다.")
  else
    match webappBuildProps r schema with
    | none => (false, "업로드 실패: \x27이름\x27")
    | some props =>
      match remote props with
      | .ok _ => (true, "\x27" ++ fvToStr r.name ++ "\x27 업로드 완료")
      | .error e => (false, "업로드 실패: " ++ e)

/-- `NotionUploader.test_connection`: the whole body is wrapped in
`try/except Exception`, so the function itself never raises — the outer
`Except` layer records that fact (`.error` would be an uncaught raise,
which never occurs).  On success `self.db_info` is set and
`(True, "연결 성공!")` returned; a raised `e` becomes
`(False, "연결 실패: " + str(e))` with `db_info` left unset. -/
def testConnection (retrieveResult : Except String (List (String × String))) :
    Except String ((Bool × String) × Option (List (String × String))) :=
  match retrieveResult with
  | .ok info => .ok ((true, "연결 성공!"), some info)
  | .error e => .ok ((false, "연결 실패: " ++ e), none)

/-- `not data` on the record dict: true exactly for the empty dict,
i.e. every key absent. -/
def recordIsVoid (r : RawRecord) : Bool :=
  decide (r = {})

/-- `upload_to_notion` of the unnamed file: reject a falsy `data`
(empty dict); retrieve the database info (a raised exception is reported
via `st.error` and `None` returned); build the properties with the
file's own `_build_properties` — note: no name validation — and create
the page, any raised exception again turning into `None`. -/
def uploadToNotion (retrieveResult : Except String (List (String × String)))
    (create : List (String × PropValue) → Except String String)
    (r : RawRecord) : Option String :=
  if recordIsVoid r then none
  else
    match retrieveResult with
    | .error _ => none
    | .ok dbInfo =>
      match create (part000Props r dbInfo) with
      | .ok resp => some resp
      | .error _ => none

/-- The batch loop of the webapp `main` (list input): for each record in
order, call `upload_person`, bump `success_count` on success, append the
outcome to the log.  Accumulated entries keep the `(success, message)`
pair that the source renders as `"✅ "`/`"❌ "`-prefixed log lines;
`remoteAt i` is the behaviour of the remote create call for the `i`-th
record. -/
def batchLoop (schema : List (String × String))
    (remoteAt : Nat → List (String × PropValue) → Except String Unit) :
    Nat → List RawRecord → Nat → List (Bool × String) →
      Nat × List (Bool × String)
  | _, [], cnt, acc => (cnt, acc)
  | i, r :: rest, cnt, acc =>
    let res := uploadPerson schema (remoteAt i) r
    batchLoop schema remoteAt (i + 1) rest
      (if res.1 then cnt + 1 else cnt) (acc ++ [res])

/-- The whole list-input branch of `main`: start at index 0 with
`success_count = 0` and an empty log. -/
def runBatch (schema : List (String × String))
    (remoteAt : Nat → List (String × PropValue) → Except String Unit)
    (records : List RawRecord) : Nat × List (Bool × String) :=
  batchLoop schema remoteAt 0 records 0 []

/-- The per-record outcomes the batch loop appends, starting at index
`i` — the specification-side companion used to state what `runBatch`
accumulates. -/
def resultsFrom (schema : List (String × String))
    (remoteAt : Nat → List (String × PropValue) → Except String Unit) :
    Nat → List RawRecord → List (Bool × String)
  | _, [] => []
  | i, r :: rest =>
    uploadPerson schema (remoteAt i) r :: resultsFrom schema remoteAt (i + 1) rest

/-- Claim-side matcher for the regex `\d{3}-\d{4}-\d{4}`: consume a run
of `n` digits, or fail. -/
def checkRun : Nat → List Char → Option (List Char)
  | 0, l => some l
  | _ + 1, [] => none
  | n + 1, c :: l => if c.isDigit then checkRun n l else none

/-- Claim-side matcher: does the string match `\d{3}-\d{4}-\d{4}`? -/
def matchesPhonePattern (t : String) : Bool :=
  match checkRun 3 t.data with
  | some ('-' :: r1) =>
    match checkRun 4 r1 with
    | some ('-' :: r2) =>
      match checkRun 4 r2 with
      | some [] => true
      | _ => false
    | _ => false
  | _ => false

theorem mem_digitsOf_isDigit {s : String} {c : Char} (h : c ∈ digitsOf s) :
    c.isDigit := (List.mem_filter.mp h).2

theorem checkRun_append (l r : List Char) (h : ∀ c ∈ l, c.isDigit) :
    checkRun l.length (l ++ r) = some r := by
  induction l with
  | nil => rfl
  | cons c t ih =>
    have hc : c.isDigit := h c (List.mem_cons_self c t)
    simp only [List.length_cons, List.cons_append, checkRun, hc, if_true]
    exact ih (fun x hx => h x (List.mem_cons_of_mem c hx))

theorem filter_digits_eq_self {l : List Char} (h : ∀ c ∈ l, c.isDigit) :
    l.filter Char.isDigit = l := List.filter_eq_self.mpr h

/-- Data of the `XXX-XXXX-XXXX` concatenation built by `formatPhone`. -/
theorem formatted_data (a b c : List Char) :
    (String.mk a ++ "-" ++ String.mk b ++ "-" ++ String.mk c).data
      = a ++ '-' :: (b ++ '-' :: c) := by
  simp [String.data_append]

/-- Digit extraction of an `a-b-c` join of all-digit segments gives the
segments back. -/
theorem digitsOf_formatted (a b c : List Char)
    (ha : ∀ x ∈ a, x.isDigit) (hb : ∀ x ∈ b, x.isDigit)
    (hc : ∀ x ∈ c, x.isDigit) :
    digitsOf (String.mk a ++ "-" ++ String.mk b ++ "-" ++ String.mk c)
      = a ++ b ++ c := by
  unfold digitsOf
  rw [formatted_data, List.filter_append,
    List.filter_cons_of_neg (by decide), List.filter_append,
    List.filter_cons_of_neg (by decide),
    filter_digits_eq_self ha, filter_digits_eq_self hb,
    filter_digits_eq_self hc, List.append_assoc]

/-- An `a-b-c` join of all-digit segments of lengths 3, 4, 4 matches
`\d{3}-\d{4}-\d{4}`. -/
theorem matchesPhonePattern_of_parts (a b c : List Char)
    (la : a.length = 3) (lb : b.length = 4) (lc : c.length = 4)
    (ha : ∀ x ∈ a, x.isDigit) (hb : ∀ x ∈ b, x.isDigit)
    (hc : ∀ x ∈ c, x.isDigit) :
    matchesPhonePattern (String.mk a ++ "-" ++ String.mk b ++ "-" ++ String.mk c)
      = true := by
  have e1 : checkRun 3 (a ++ '-' :: (b ++ '-' :: c))
      = some ('-' :: (b ++ '-' :: c)) := by
    rw [← la]; exact checkRun_append _ _ ha
  have e2 : checkRun 4 (b ++ '-' :: c) = some ('-' :: c) := by
    rw [← lb]; exact checkRun_append _ _ hb
  have e3 : checkRun 4 c = some [] := by
    have h := checkRun_append c [] hc
    rw [List.append_nil] at h
    rw [← lc]; exact h
  simp [matchesPhonePattern, formatted_data, e1, e2, e3]

/-- Membership in a guarded email/phone store: exactly the entry for a
truthy fetched value. -/
theorem mem_optEntry {o : Option String} {k : String}
    {mk : String → PropValue} {kv : String × PropValue} :
    kv ∈ optEntry o k mk ↔ ∃ s, o = some s ∧ s ≠ "" ∧ kv = (k, mk s) := by
  cases o with
  | none => simp [optEntry]
  | some s =>
    by_cases h : s = "" <;> simp [optEntry, h]

/-- Membership in a select-loop iteration: a truthy value whose field the
schema declares with type `select`. -/
theorem mem_selectEntry {schema : List (String × String)} {k : String}
    {o : Option String} {kv : String × PropValue} :
    kv ∈ selectEntry schema k o ↔
      ∃ s, o = some s ∧ s ≠ "" ∧ schema.lookup k = some "select"
        ∧ kv = (k, PropValue.select s) := by
  cases o with
  | none => simp [selectEntry]
  | some s =>
    by_cases h : s = ""
    · simp [selectEntry, h]
    · cases hl : schema.lookup k with
      | none => simp [selectEntry, h, hl]
      | some ty =>
        by_cases ht : ty = "select" <;> simp [selectEntry, h, hl, ht]

/-- Membership in a rich-text-loop iteration: a truthy value whose field
the schema declares `rich_text`, or — for `"포지션"` only —
`multi_select` with the comma-split payload. -/
theorem mem_richEntry {schema : List (String × String)} {k : String}
    {o : Option String} {kv : String × PropValue} :
    kv ∈ richEntry schema k o ↔
      ∃ s, o = some s ∧ s ≠ "" ∧
        ((schema.lookup k = some "rich_text" ∧ kv = (k, PropValue.richText s))
          ∨ (schema.lookup k = some "multi_select" ∧ k = "포지션"
              ∧ kv = (k, PropValue.multiSelect (splitPositions s)))) := by
  cases o with
  | none => simp [richEntry]
  | some s =>
    by_cases h : s = ""
    · simp [richEntry, h]
    · cases hl : schema.lookup k with
      | none => simp [richEntry, h, hl]
      | some ty =>
        by_cases ht : ty = "rich_text"
        · simp [richEntry, h, hl, ht]
        · by_cases hm : ty = "multi_select"
          · by_cases hk : k = "포지션"
            · subst hk
              simp [richEntry, h, hl, ht, hm]
            · simp [richEntry, h, hl, ht, hm, hk]
          · simp [richEntry, h, hl, ht, hm]

/-- Membership in the webapp's unconditional title store. -/
theorem mem_titleEntry {v : FieldVal} {kv : String × PropValue} :
    kv ∈ titleEntry v ↔ kv = ("이름", PropValue.title (fvToStr v)) := by
  simp [titleEntry]

/-- Splitting a membership in the webapp property dict into its eleven
source blocks, in source order. -/
theorem mem_webappProps {r : RawRecord} {schema : List (String × String)}
    {kv : String × PropValue} :
    kv ∈ webappProps r schema ↔
      kv ∈ titleEntry r.name
        ∨ kv ∈ optEntry (fvGet r.email) "이메일" PropValue.email
        ∨ kv ∈ optEntry (fvGet r.phone) "전화번호"
            (fun s => PropValue.phoneNumber (formatPhone s))
        ∨ kv ∈ selectEntry schema "나이/탄생연도"
            (pyOr (fvGet r.ageBirthParen) (fvGet r.ageBirthSlash))
        ∨ kv ∈ selectEntry schema "성별" (fvGet r.gender)
        ∨ kv ∈ richEntry schema "총경력" (fvGet r.career)
        ∨ kv ∈ richEntry schema "최종학력(전공)"
            (pyOr (fvGet r.eduSchoolMajor) (fvGet r.eduMajor))
        ∨ kv ∈ richEntry schema "최종직장" (fvGet r.lastJob)
        ∨ kv ∈ richEntry schema "직급/주요업무" (fvGet r.duty)
        ∨ kv ∈ richEntry schema "핵심역량" (fvGet r.skills)
        ∨ kv ∈ richEntry schema "포지션" (fvGet r.position) := by
  simp [webappProps, List.mem_append, or_assoc]

/-- Splitting a membership in the unnamed file's property dict into its
eleven source blocks, in source order. -/
theorem mem_part000Props {r : RawRecord} {schema : List (String × String)}
    {kv : String × PropValue} :
    kv ∈ part000Props r schema ↔
      kv ∈ optEntry (fvGet r.name) "이름" PropValue.title
        ∨ kv ∈ optEntry (fvGet r.email) "이메일" PropValue.email
        ∨ kv ∈ optEntry (fvGet r.phone) "전화번호"
            (fun s => PropValue.phoneNumber (formatPhone s))
        ∨ kv ∈ selectEntry schema "나이/탄생연도" (fvGet r.ageBirthSlash)
        ∨ kv ∈ selectEntry schema "성별" (fvGet r.gender)
        ∨ kv ∈ richEntry schema "총경력" (fvGet r.career)
        ∨ kv ∈ richEntry schema "최종학력(전공)" (fvGet r.eduMajor)
        ∨ kv ∈ richEntry schema "최종직장" (fvGet r.lastJob)
        ∨ kv ∈ richEntry schema "직급/주요업무" (fvGet r.duty)
        ∨ kv ∈ richEntry schema "핵심역량" (fvGet r.skills)
        ∨ kv ∈ richEntry schema "포지션" (fvGet r.position) := by
  simp [part000Props, List.mem_append, or_assoc]

/-- An entry produced by a guarded store carries that store's key. -/
theorem key_of_mem_optEntry {o : Option String} {k : String}
    {mk : String → PropValue} {k' : String} {v : PropValue}
    (h : (k', v) ∈ optEntry o k mk) : k' = k := by
  rcases mem_optEntry.mp h with ⟨s, _, _, hkv⟩
  exact (Prod.mk.inj hkv).1

/-- An entry produced by a select-loop iteration carries its field key. -/
theorem key_of_mem_selectEntry {schema : List (String × String)} {k : String}
    {o : Option String} {k' : String} {v : PropValue}
    (h : (k', v) ∈ selectEntry schema k o) : k' = k := by
  rcases mem_selectEntry.mp h with ⟨s, _, _, _, hkv⟩
  exact (Prod.mk.inj hkv).1

/-- An entry produced by a rich-text-loop iteration carries its field
key. -/
theorem key_of_mem_richEntry {schema : List (String × String)} {k : String}
    {o : Option String} {k' : String} {v : PropValue}
    (h : (k', v) ∈ richEntry schema k o) : k' = k := by
  rcases mem_richEntry.mp h with ⟨s, _, _, ⟨_, hkv⟩ | ⟨_, _, hkv⟩⟩ <;>
    exact (Prod.mk.inj hkv).1

/-- The title store's entry carries the key `"이름"`. -/
theorem key_of_mem_titleEntry {w : FieldVal} {k' : String} {v : PropValue}
    (h : (k', v) ∈ titleEntry w) : k' = "이름" := by
  exact (Prod.mk.inj (mem_titleEntry.mp h)).1

/-- A successful webapp `_build_properties` returns exactly
`webappProps`. -/
theorem webappBuildProps_eq_some {r : RawRecord}
    {schema : List (String × String)} {ps : List (String × PropValue)}
    (h : webappBuildProps r schema = some ps) : ps = webappProps r schema := by
  unfold webappBuildProps at h
  cases hn : r.name with
  | absent => rw [hn] at h; exact Option.noConfusion h
  | null => rw [hn] at h; exact (Option.some.inj h).symm
  | str s => rw [hn] at h; exact (Option.some.inj h).symm

end JsonNotion

namespace JsonNotion

/-- C4 — the phone normalizer is total; when the digit sequence of the
input has exactly 11 digits and starts with `010`, the output is the
first three digits, a hyphen, the next four, a hyphen, the last four —
matching `\d{3}-\d{4}-\d{4}` with the input's digit sequence preserved —
and otherwise the input is returned unchanged (not the stripped
digits). -/
theorem c4_phone_normalizer (s : String) :
    ((digitsOf s).length = 11 → (digitsOf s).take 3 = ['0', '1', '0'] →
      formatPhone s =
          String.mk ((digitsOf s).take 3) ++ "-"
            ++ String.mk (((digitsOf s).drop 3).take 4) ++ "-"
            ++ String.mk ((digitsOf s).drop 7)
        ∧ digitsOf (formatPhone s) = digitsOf s
        ∧ matchesPhonePattern (formatPhone s) = true)
    ∧ (¬ ((digitsOf s).length = 11 ∧ (digitsOf s).take 3 = ['0', '1', '0']) →
        formatPhone s = s) := by
  constructor
  · intro h1 h2
    have hfmt : formatPhone s =
        String.mk ((digitsOf s).take 3) ++ "-"
          ++ String.mk (((digitsOf s).drop 3).take 4) ++ "-"
          ++ String.mk ((digitsOf s).drop 7) := by
      unfold formatPhone
      rw [if_pos ⟨h1, h2⟩]
    have ha : ∀ c ∈ (digitsOf s).take 3, c.isDigit :=
      fun c hc => mem_digitsOf_isDigit (List.take_subset 3 _ hc)
    have hb : ∀ c ∈ ((digitsOf s).drop 3).take 4, c.isDigit :=
      fun c hc => mem_digitsOf_isDigit
        (List.drop_subset 3 _ (List.take_subset 4 _ hc))
    have hc' : ∀ c ∈ (digitsOf s).drop 7, c.isDigit :=
      fun c hc => mem_digitsOf_isDigit (List.drop_subset 7 _ hc)
    refine ⟨hfmt, ?_, ?_⟩
    · rw [hfmt, digitsOf_formatted _ _ _ ha hb hc']
      have h7 : (digitsOf s).drop 7 = ((digitsOf s).drop 3).drop 4 := by
        rw [List.drop_drop]
      rw [List.append_assoc, h7, List.take_append_drop, List.take_append_drop]
    · have la : ((digitsOf s).take 3).length = 3 := by
        rw [List.length_take]; omega
      have lb : (((digitsOf s).drop 3).take 4).length = 4 := by
        rw [List.length_take, List.length_drop]; omega
      have lc : ((digitsOf s).drop 7).length = 4 := by
        rw [List.length_drop]; omega
      rw [hfmt]
      exact matchesPhonePattern_of_parts _ _ _ la lb lc ha hb hc'
  · intro h
    unfold formatPhone
    rw [if_neg h]

/-- C4 witness: the normalizer at work on a concrete 11-digit `010`
number and an unchanged non-matching input. -/
theorem c4_phone_normalizer_witness :
    ((digitsOf "x01012345678y").length = 11
      ∧ (formatPhone "x01012345678y" =
            String.mk ((digitsOf "x01012345678y").take 3) ++ "-"
              ++ String.mk (((digitsOf "x01012345678y").drop 3).take 4) ++ "-"
              ++ String.mk ((digitsOf "x01012345678y").drop 7)
          ∧ digitsOf (formatPhone "x01012345678y") = digitsOf "x01012345678y"
          ∧ matchesPhonePattern (formatPhone "x01012345678y") = true))
    ∧ formatPhone "hello" = "hello" :=
  ⟨⟨by decide, (c4_phone_normalizer "x01012345678y").1 (by decide) (by decide)⟩,
    (c4_phone_normalizer "hello").2 (by decide)⟩

/-- C2, counterexample — the claim requires every non-title field of the
built property set to be declared in the destination schema, but the
webapp mapper stores the email (and phone) fields without consulting the
schema at all: a record with a name and an email mapped against the
empty schema yields a property set containing `"이메일"`, which the
empty schema does not declare. -/
theorem c2_counterexample :
    webappBuildProps ({ name := .str "A", email := .str "a@b" } : RawRecord) []
        = some [("이름", PropValue.title "A"), ("이메일", PropValue.email "a@b")]
      ∧ ("이메일", PropValue.email "a@b")
          ∈ [("이름", PropValue.title "A"), ("이메일", PropValue.email "a@b")]
      ∧ List.lookup "이메일" ([] : List (String × String)) = none := by
  decide

/-- C2, amended — every non-title field of a built webapp property set
is one of: the email field with its truthy raw value (stored regardless
of the schema); the phone field with the normalized truthy raw value
(stored regardless of the schema); a select field (age — under either
the legacy or the canonical record key — or gender) with a truthy value
that the schema declares with kind `select`; a free-text field
(education reading both key variants) with a truthy value declared
`rich_text`; or the target-position field declared `rich_text` or
`multi_select` (the latter with the comma-split payload).  Fields
failing these conditions are omitted, never coerced. -/
theorem c2_included_fields (r : RawRecord) (schema : List (String × String))
    (ps : List (String × PropValue))
    (hps : webappBuildProps r schema = some ps)
    (k : String) (v : PropValue) (hmem : (k, v) ∈ ps) (hk : k ≠ "이름") :
    (k = "이메일" ∧ ∃ s, fvGet r.email = some s ∧ s ≠ ""
        ∧ v = PropValue.email s)
    ∨ (k = "전화번호" ∧ ∃ s, fvGet r.phone = some s ∧ s ≠ ""
        ∧ v = PropValue.phoneNumber (formatPhone s))
    ∨ (k = "나이/탄생연도"
        ∧ ∃ s, pyOr (fvGet r.ageBirthParen) (fvGet r.ageBirthSlash) = some s
          ∧ s ≠ "" ∧ schema.lookup "나이/탄생연도" = some "select"
          ∧ v = PropValue.select s)
    ∨ (k = "성별" ∧ ∃ s, fvGet r.gender = some s ∧ s ≠ ""
        ∧ schema.lookup "성별" = some "select" ∧ v = PropValue.select s)
    ∨ (k = "총경력" ∧ ∃ s, fvGet r.career = some s ∧ s ≠ ""
        ∧ schema.lookup "총경력" = some "rich_text" ∧ v = PropValue.richText s)
    ∨ (k = "최종학력(전공)"
        ∧ ∃ s, pyOr (fvGet r.eduSchoolMajor) (fvGet r.eduMajor) = some s
          ∧ s ≠ "" ∧ schema.lookup "최종학력(전공)" = some "rich_text"
          ∧ v = PropValue.richText s)
    ∨ (k = "최종직장" ∧ ∃ s, fvGet r.lastJob = some s ∧ s ≠ ""
        ∧ schema.lookup "최종직장" = some "rich_text"
        ∧ v = PropValue.richText s)
    ∨ (k = "직급/주요업무" ∧ ∃ s, fvGet r.duty = some s ∧ s ≠ ""
        ∧ schema.lookup "직급/주요업무" = some "rich_text"
        ∧ v = PropValue.richText s)
    ∨ (k = "핵심역량" ∧ ∃ s, fvGet r.skills = some s ∧ s ≠ ""
        ∧ schema.lookup "핵심역량" = some "rich_text"
        ∧ v = PropValue.richText s)
    ∨ (k = "포지션" ∧ ∃ s, fvGet r.position = some s ∧ s ≠ ""
        ∧ ((schema.lookup "포지션" = some "rich_text"
              ∧ v = PropValue.richText s)
            ∨ (schema.lookup "포지션" = some "multi_select"
              ∧ v = PropValue.multiSelect (splitPositions s)))) := by
  have hps' : ps = webappProps r schema := webappBuildProps_eq_some hps
  subst hps'
  rcases mem_webappProps.mp hmem with h|h|h|h|h|h|h|h|h|h|h
  · exact absurd (key_of_mem_titleEntry h) hk
  · rcases mem_optEntry.mp h with ⟨s, hs, hne, hkv⟩
    rw [Prod.mk.injEq] at hkv
    obtain ⟨rfl, rfl⟩ := hkv
    exact Or.inl ⟨rfl, s, hs, hne, rfl⟩
  · rcases mem_optEntry.mp h with ⟨s, hs, hne, hkv⟩
    rw [Prod.mk.injEq] at hkv
    obtain ⟨rfl, rfl⟩ := hkv
    exact Or.inr (Or.inl ⟨rfl, s, hs, hne, rfl⟩)
  · rcases mem_selectEntry.mp h with ⟨s, hs, hne, hty, hkv⟩
    rw [Prod.mk.injEq] at hkv
    obtain ⟨rfl, rfl⟩ := hkv
    exact Or.inr (Or.inr (Or.inl ⟨rfl, s, hs, hne, hty, rfl⟩))
  · rcases mem_selectEntry.mp h with ⟨s, hs, hne, hty, hkv⟩
    rw [Prod.mk.injEq] at hkv
    obtain ⟨rfl, rfl⟩ := hkv
    exact Or.inr (Or.inr (Or.inr (Or.inl ⟨rfl, s, hs, hne, hty, rfl⟩)))
  · rcases mem_richEntry.mp h with ⟨s, hs, hne, ⟨hty, hkv⟩ | ⟨_, hbad, _⟩⟩
    · rw [Prod.mk.injEq] at hkv
      obtain ⟨rfl, rfl⟩ := hkv
      exact Or.inr (Or.inr (Or.inr (Or.inr (Or.inl ⟨rfl, s, hs, hne, hty, rfl⟩))))
    · exact absurd hbad (by decide)
  · rcases mem_richEntry.mp h with ⟨s, hs, hne, ⟨hty, hkv⟩ | ⟨_, hbad, _⟩⟩
    · rw [Prod.mk.injEq] at hkv
      obtain ⟨rfl, rfl⟩ := hkv
      exact Or.inr (Or.inr (Or.inr (Or.inr (Or.inr (Or.inl
        ⟨rfl, s, hs, hne, hty, rfl⟩)))))
    · exact absurd hbad (by decide)
  · rcases mem_richEntry.mp h with ⟨s, hs, hne, ⟨hty, hkv⟩ | ⟨_, hbad, _⟩⟩
    · rw [Prod.mk.injEq] at hkv
      obtain ⟨rfl, rfl⟩ := hkv
      exact Or.inr (Or.inr (Or.inr (Or.inr (Or.inr (Or.inr (Or.inl
        ⟨rfl, s, hs, hne, hty, rfl⟩))))))
    · exact absurd hbad (by decide)
  · rcases mem_richEntry.mp h with ⟨s, hs, hne, ⟨hty, hkv⟩ | ⟨_, hbad, _⟩⟩
    · rw [Prod.mk.injEq] at hkv
      obtain ⟨rfl, rfl⟩ := hkv
      exact Or.inr (Or.inr (Or.inr (Or.inr (Or.inr (Or.inr (Or.inr (Or.inl
        ⟨rfl, s, hs, hne, hty, rfl⟩)))))))
    · exact absurd hbad (by decide)
  · rcases mem_richEntry.mp h with ⟨s, hs, hne, ⟨hty, hkv⟩ | ⟨_, hbad, _⟩⟩
    · rw [Prod.mk.injEq] at hkv
      obtain ⟨rfl, rfl⟩ := hkv
      exact Or.inr (Or.inr (Or.inr (Or.inr (Or.inr (Or.inr (Or.inr (Or.inr
        (Or.inl ⟨rfl, s, hs, hne, hty, rfl⟩))))))))
    · exact absurd hbad (by decide)
  · rcases mem_richEntry.mp h with ⟨s, hs, hne, ⟨hty, hkv⟩ | ⟨hty, _, hkv⟩⟩
    · rw [Prod.mk.injEq] at hkv
      obtain ⟨rfl, rfl⟩ := hkv
      exact Or.inr (Or.inr (Or.inr (Or.inr (Or.inr (Or.inr (Or.inr (Or.inr
        (Or.inr ⟨rfl, s, hs, hne, Or.inl ⟨hty, rfl⟩⟩))))))))
    · rw [Prod.mk.injEq] at hkv
      obtain ⟨rfl, rfl⟩ := hkv
      exact Or.inr (Or.inr (Or.inr (Or.inr (Or.inr (Or.inr (Or.inr (Or.inr
        (Or.inr ⟨rfl, s, hs, hne, Or.inr ⟨hty, rfl⟩⟩))))))))

/-- C2, witness — the amended characterization applied to the concrete
record and empty schema of the counterexample, at the email entry. -/
theorem c2_included_fields_witness :
    ("이메일" : String) = "이메일"
        ∧ ∃ s, fvGet ({ name := .str "A", email := .str "a@b" } : RawRecord).email
            = some s ∧ s ≠ "" ∧ PropValue.email "a@b" = PropValue.email s := by
  have h := c2_included_fields ({ name := .str "A", email := .str "a@b" })
    [] [("이름", PropValue.title "A"), ("이메일", PropValue.email "a@b")]
    (by decide) "이메일" (PropValue.email "a@b") (by decide) (by decide)
  rcases h with h | h | h | h | h | h | h | h | h | h
  · exact h
  all_goals exact absurd h.1 (by decide)

/-- C5, counterexample — the claim promises the multi-select payload for
every non-null target-position value, but a record whose `"포지션"` value
is the empty string (non-null) is skipped by the truthiness guard: the
built set has no `"포지션"` entry at all, in particular not the empty
choice list that splitting `""` would give. -/
theorem c5_counterexample :
    webappProps ({ name := .str "A", position := .str "" } : RawRecord)
        [("포지션", "multi_select")] = [("이름", PropValue.title "A")]
      ∧ ("포지션", PropValue.multiSelect (splitPositions ""))
          ∉ [("이름", PropValue.title "A")] := by
  decide

/-- C5, amended — for every record whose target-position value is
non-null and non-empty (truthy) and every schema declaring `"포지션"`
with kind `multi_select`, both mappers set that property to exactly the
comma-split, trimmed, empty-dropped list of named choices. -/
theorem c5_position_multiselect (r : RawRecord)
    (schema : List (String × String)) (s : String)
    (hs : fvGet r.position = some s) (hne : s ≠ "")
    (hty : schema.lookup "포지션" = some "multi_select") :
    (∀ v, ("포지션", v) ∈ webappProps r schema
        ↔ v = PropValue.multiSelect (splitPositions s))
    ∧ (∀ v, ("포지션", v) ∈ part000Props r schema
        ↔ v = PropValue.multiSelect (splitPositions s)) := by
  have hpos : ∀ v, ("포지션", v) ∈ richEntry schema "포지션" (fvGet r.position)
      ↔ v = PropValue.multiSelect (splitPositions s) := by
    intro v
    constructor
    · intro h
      rcases mem_richEntry.mp h with ⟨s', hs', _, ⟨hty', _⟩ | ⟨_, _, hkv⟩⟩
      · rw [hty] at hty'
        exact absurd (Option.some.inj hty') (by decide)
      · rw [hs] at hs'
        obtain rfl := Option.some.inj hs'
        rw [Prod.mk.injEq] at hkv
        exact hkv.2
    · intro h
      subst h
      exact mem_richEntry.mpr ⟨s, hs, hne, Or.inr ⟨hty, rfl, rfl⟩⟩
  constructor
  · intro v
    constructor
    · intro h
      rcases mem_webappProps.mp h with h|h|h|h|h|h|h|h|h|h|h
      · exact absurd (key_of_mem_titleEntry h) (by decide)
      · exact absurd (key_of_mem_optEntry h) (by decide)
      · exact absurd (key_of_mem_optEntry h) (by decide)
      · exact absurd (key_of_mem_selectEntry h) (by decide)
      · exact absurd (key_of_mem_selectEntry h) (by decide)
      · exact absurd (key_of_mem_richEntry h) (by decide)
      · exact absurd (key_of_mem_richEntry h) (by decide)
      · exact absurd (key_of_mem_richEntry h) (by decide)
      · exact absurd (key_of_mem_richEntry h) (by decide)
      · exact absurd (key_of_mem_richEntry h) (by decide)
      · exact (hpos v).mp h
    · intro h
      exact mem_webappProps.mpr (Or.inr (Or.inr (Or.inr (Or.inr (Or.inr
        (Or.inr (Or.inr (Or.inr (Or.inr (Or.inr ((hpos v).mpr h)))))))))))
  · intro v
    constructor
    · intro h
      rcases mem_part000Props.mp h with h|h|h|h|h|h|h|h|h|h|h
      · exact absurd (key_of_mem_optEntry h) (by decide)
      · exact absurd (key_of_mem_optEntry h) (by decide)
      · exact absurd (key_of_mem_optEntry h) (by decide)
      · exact absurd (key_of_mem_selectEntry h) (by decide)
      · exact absurd (key_of_mem_selectEntry h) (by decide)
      · exact absurd (key_of_mem_richEntry h) (by decide)
      · exact absurd (key_of_mem_richEntry h) (by decide)
      · exact absurd (key_of_mem_richEntry h) (by decide)
      · exact absurd (key_of_mem_richEntry h) (by decide)
      · exact absurd (key_of_mem_richEntry h) (by decide)
      · exact (hpos v).mp h
    · intro h
      exact mem_part000Props.mpr (Or.inr (Or.inr (Or.inr (Or.inr (Or.inr
        (Or.inr (Or.inr (Or.inr (Or.inr (Or.inr ((hpos v).mpr h)))))))))))

/-- C5, witness — the amended theorem at the spec's concrete example:
`"Backend, Frontend ,  "` yields exactly the two choices `"Backend"`
then `"Frontend"`. -/
theorem c5_position_multiselect_witness :
    splitPositions "Backend, Frontend ,  " = ["Backend", "Frontend"]
      ∧ (("포지션", PropValue.multiSelect ["Backend", "Frontend"])
            ∈ webappProps
              ({ name := .str "A", position := .str "Backend, Frontend ,  " }
                : RawRecord) [("포지션", "multi_select")]
          ↔ PropValue.multiSelect ["Backend", "Frontend"]
              = PropValue.multiSelect
                  (splitPositions "Backend, Frontend ,  ")) :=
  ⟨by decide,
    (c5_position_multiselect
      ({ name := .str "A", position := .str "Backend, Frontend ,  " }
        : RawRecord)
      [("포지션", "multi_select")] "Backend, Frontend ,  "
      (by decide) (by decide) (by decide)).1
      (PropValue.multiSelect ["Backend", "Frontend"])⟩

/-- C10, counterexample — the claim promises a `phone_number` payload
for every non-null phone value, but a record whose `"전화번호"` value is
the empty string (non-null) is skipped by the truthiness guard and gets
no phone entry at all. -/
theorem c10_counterexample :
    webappProps ({ name := .str "A", phone := .str "" } : RawRecord) []
        = [("이름", PropValue.title "A")]
      ∧ ("전화번호", PropValue.phoneNumber (formatPhone ""))
          ∉ [("이름", PropValue.title "A")] := by
  decide

/-- C10, amended — for every record whose phone value is non-null and
non-empty (truthy), both mappers map `"전화번호"` to exactly the
`phone_number` payload carrying the normalized string; the `rich_text`
fallback of the source's `try/except` is dead code (a dict store cannot
raise) and no phone entry ever carries a `rich_text` payload. -/
theorem c10_phone_payload (r : RawRecord) (schema : List (String × String))
    (s : String) (hs : fvGet r.phone = some s) (hne : s ≠ "") :
    (∀ v, ("전화번호", v) ∈ webappProps r schema
        ↔ v = PropValue.phoneNumber (formatPhone s))
    ∧ (∀ v, ("전화번호", v) ∈ part000Props r schema
        ↔ v = PropValue.phoneNumber (formatPhone s))
    ∧ (∀ c, ("전화번호", PropValue.richText c) ∉ webappProps r schema)
    ∧ (∀ c, ("전화번호", PropValue.richText c) ∉ part000Props r schema) := by
  have hph : ∀ v, ("전화번호", v) ∈ optEntry (fvGet r.phone) "전화번호"
        (fun t => PropValue.phoneNumber (formatPhone t))
      ↔ v = PropValue.phoneNumber (formatPhone s) := by
    intro v
    constructor
    · intro h
      rcases mem_optEntry.mp h with ⟨s', hs', _, hkv⟩
      rw [hs] at hs'
      obtain rfl := Option.some.inj hs'
      rw [Prod.mk.injEq] at hkv
      exact hkv.2
    · intro h
      subst h
      exact mem_optEntry.mpr ⟨s, hs, hne, rfl⟩
  have hweb : ∀ v, ("전화번호", v) ∈ webappProps r schema
      ↔ v = PropValue.phoneNumber (formatPhone s) := by
    intro v
    constructor
    · intro h
      rcases mem_webappProps.mp h with h|h|h|h|h|h|h|h|h|h|h
      · exact absurd (key_of_mem_titleEntry h) (by decide)
      · exact absurd (key_of_mem_optEntry h) (by decide)
      · exact (hph v).mp h
      · exact absurd (key_of_mem_selectEntry h) (by decide)
      · exact absurd (key_of_mem_selectEntry h) (by decide)
      · exact absurd (key_of_mem_richEntry h) (by decide)
      · exact absurd (key_of_mem_richEntry h) (by decide)
      · exact absurd (key_of_mem_richEntry h) (by decide)
      · exact absurd (key_of_mem_richEntry h) (by decide)
      · exact absurd (key_of_mem_richEntry h) (by decide)
      · exact absurd (key_of_mem_richEntry h) (by decide)
    · intro h
      exact mem_webappProps.mpr (Or.inr (Or.inr (Or.inl ((hph v).mpr h))))
  have hpart : ∀ v, ("전화번호", v) ∈ part000Props r schema
      ↔ v = PropValue.phoneNumber (formatPhone s) := by
    intro v
    constructor
    · intro h
      rcases mem_part000Props.mp h with h|h|h|h|h|h|h|h|h|h|h
      · exact absurd (key_of_mem_optEntry h) (by decide)
      · exact absurd (key_of_mem_optEntry h) (by decide)
      · exact (hph v).mp h
      · exact absurd (key_of_mem_selectEntry h) (by decide)
      · exact absurd (key_of_mem_selectEntry h) (by decide)
      · exact absurd (key_of_mem_richEntry h) (by decide)
      · exact absurd (key_of_mem_richEntry h) (by decide)
      · exact absurd (key_of_mem_richEntry h) (by decide)
      · exact absurd (key_of_mem_richEntry h) (by decide)
      · exact absurd (key_of_mem_richEntry h) (by decide)
      · exact absurd (key_of_mem_richEntry h) (by decide)
    · intro h
      exact mem_part000Props.mpr (Or.inr (Or.inr (Or.inl ((hph v).mpr h))))
  refine ⟨hweb, hpart, ?_, ?_⟩
  · intro c h
    exact PropValue.noConfusion ((hweb (PropValue.richText c)).mp h)
  · intro c h
    exact PropValue.noConfusion ((hpart (PropValue.richText c)).mp h)

/-- C10, witness — the amended theorem at a concrete record: the phone
value `"01012345678"` appears exactly as the normalized `phone_number`
payload. -/
theorem c10_phone_payload_witness :
    ("전화번호", PropValue.phoneNumber (formatPhone "01012345678"))
        ∈ webappProps ({ name := .str "A", phone := .str "01012345678" }
            : RawRecord) []
      ↔ PropValue.phoneNumber (formatPhone "01012345678")
          = PropValue.phoneNumber (formatPhone "01012345678") :=
  (c10_phone_payload
    ({ name := .str "A", phone := .str "01012345678" } : RawRecord) []
    "01012345678" (by decide) (by decide)).1
    (PropValue.phoneNumber (formatPhone "01012345678"))

/-- C9, counterexample — the claim's hypotheses (non-null name, no
legacy alias keys) admit the record whose name is the empty string:
there the webapp mapper still writes the title (direct index, no guard)
while the unnamed file's mapper drops it (truthiness guard), so the two
PropertySets differ. -/
theorem c9_counterexample :
    webappBuildProps ({ name := .str "" } : RawRecord) []
        = some [("이름", PropValue.title "")]
      ∧ part000Props ({ name := .str "" } : RawRecord) [] = []
      ∧ webappProps ({ name := .str "" } : RawRecord) []
          ≠ part000Props ({ name := .str "" } : RawRecord) [] := by
  decide

/-- C9, amended — for every record with a truthy (non-null AND
non-empty) name that supplies no value under the legacy alias keys, and
every schema, the two mapping implementations produce identical
PropertySets. -/
theorem c9_mapper_equivalence (r : RawRecord)
    (schema : List (String × String)) (s : String)
    (hname : r.name = .str s) (hne : s ≠ "")
    (hage : fvGet r.ageBirthParen = none)
    (hedu : fvGet r.eduSchoolMajor = none) :
    webappBuildProps r schema = some (part000Props r schema) := by
  have hbody : webappProps r schema = part000Props r schema := by
    unfold webappProps part000Props titleEntry
    rw [hname, hage, hedu]
    simp [optEntry, pyOr, isTruthy, fvGet, fvToStr, hne]
  unfold webappBuildProps
  rw [hname]
  exact congrArg some hbody

/-- C9, witness — the amended equivalence at a concrete canonical-key
record. -/
theorem c9_mapper_equivalence_witness :
    webappBuildProps
        ({ name := .str "홍길동", ageBirthSlash := .str "1990" } : RawRecord)
        [("나이/탄생연도", "select")]
      = some (part000Props
          ({ name := .str "홍길동", ageBirthSlash := .str "1990" } : RawRecord)
          [("나이/탄생연도", "select")]) :=
  c9_mapper_equivalence _ _ "홍길동" rfl (by decide) (by decide) (by decide)

/-- C6, counterexample — a record carrying its age under the legacy key
`"나이(탄생연도)"` maps to a select property in the webapp, but the
unnamed file's mapper consults only the canonical key and drops it, so
the claim's "holds for each of the program's mapping entry points" is
false. -/
theorem c6_counterexample :
    webappProps ({ name := .str "A", ageBirthParen := .str "1990" } : RawRecord)
        [("나이/탄생연도", "select")]
      = [("이름", PropValue.title "A"), ("나이/탄생연도", PropValue.select "1990")]
    ∧ part000Props ({ name := .str "A", ageBirthParen := .str "1990" } : RawRecord)
        [("나이/탄생연도", "select")]
      = [("이름", PropValue.title "A")]
    ∧ ("나이/탄생연도", PropValue.select "1990")
        ∉ part000Props ({ name := .str "A", ageBirthParen := .str "1990" } : RawRecord)
            [("나이/탄생연도", "select")] := by
  decide

/-- C6, amended — the webapp mapper accepts both historical key
spellings for the age and education fields (legacy key consulted first,
then the canonical one, via Python `or`), setting the property when the
schema kind permits; the unnamed file's mapper accepts only the
canonical keys `"나이/탄생연도"` and `"최종학력(전공)"` and ignores the
legacy keys entirely. -/
theorem c6_alias_keys :
    (∀ (r : RawRecord) (schema : List (String × String)) (s : String),
        pyOr (fvGet r.ageBirthParen) (fvGet r.ageBirthSlash) = some s →
        s ≠ "" → schema.lookup "나이/탄생연도" = some "select" →
        ("나이/탄생연도", PropValue.select s) ∈ webappProps r schema)
    ∧ (∀ (r : RawRecord) (schema : List (String × String)) (s : String),
        pyOr (fvGet r.eduSchoolMajor) (fvGet r.eduMajor) = some s →
        s ≠ "" → schema.lookup "최종학력(전공)" = some "rich_text" →
        ("최종학력(전공)", PropValue.richText s) ∈ webappProps r schema)
    ∧ (∀ (r : RawRecord) (schema : List (String × String)) (s : String),
        fvGet r.ageBirthSlash = some s →
        s ≠ "" → schema.lookup "나이/탄생연도" = some "select" →
        ("나이/탄생연도", PropValue.select s) ∈ part000Props r schema)
    ∧ (∀ (r : RawRecord) (schema : List (String × String)) (s : String),
        fvGet r.eduMajor = some s →
        s ≠ "" → schema.lookup "최종학력(전공)" = some "rich_text" →
        ("최종학력(전공)", PropValue.richText s) ∈ part000Props r schema)
    ∧ (∀ (r : RawRecord) (schema : List (String × String)),
        part000Props r schema
          = part000Props
              { r with ageBirthParen := .absent, eduSchoolMajor := .absent }
              schema) := by
  refine ⟨?_, ?_, ?_, ?_, ?_⟩
  · intro r schema s h hne hty
    exact mem_webappProps.mpr (Or.inr (Or.inr (Or.inr (Or.inl
      (mem_selectEntry.mpr ⟨s, h, hne, hty, rfl⟩)))))
  · intro r schema s h hne hty
    exact mem_webappProps.mpr (Or.inr (Or.inr (Or.inr (Or.inr (Or.inr
      (Or.inr (Or.inl (mem_richEntry.mpr ⟨s, h, hne, Or.inl ⟨hty, rfl⟩⟩))))))))
  · intro r schema s h hne hty
    exact mem_part000Props.mpr (Or.inr (Or.inr (Or.inr (Or.inl
      (mem_selectEntry.mpr ⟨s, h, hne, hty, rfl⟩)))))
  · intro r schema s h hne hty
    exact mem_part000Props.mpr (Or.inr (Or.inr (Or.inr (Or.inr (Or.inr
      (Or.inr (Or.inl (mem_richEntry.mpr ⟨s, h, hne, Or.inl ⟨hty, rfl⟩⟩))))))))
  · intro r schema
    rfl

/-- C6, witness — the webapp accepting the legacy age key on a concrete
record. -/
theorem c6_alias_keys_witness :
    ("나이/탄생연도", PropValue.select "1990")
      ∈ webappProps
          ({ name := .str "A", ageBirthParen := .str "1990" } : RawRecord)
          [("나이/탄생연도", "select")] :=
  c6_alias_keys.1 _ _ "1990" (by decide) (by decide) (by decide)

/-- C1, counterexample — the unnamed file's upload operation performs no
name validation: a record with no name but a non-empty body builds a
titleless property set and the upload succeeds outright, with no
validation failure of any kind, contradicting the claim for that entry
point. -/
theorem c1_counterexample :
    uploadToNotion (.ok []) (fun _ => .ok "created")
        ({ email := .str "a@b" } : RawRecord) = some "created"
      ∧ part000Props ({ email := .str "a@b" } : RawRecord) []
          = [("이메일", PropValue.email "a@b")] := by
  decide

/-- C1, amended — in the webapp entry point, every record whose name is
absent, null, or empty fails with the fixed missing-name failure result
regardless of other fields, and with a usable name the mapper itself
never fails; the unnamed file's mapper performs no name validation — a
record with a falsy name simply yields a property set with no title
entry. -/
theorem c1_name_validation :
    (∀ (schema : List (String × String))
        (remote : List (String × PropValue) → Except String Unit)
        (r : RawRecord),
        (r.name = .absent ∨ r.name = .null ∨ r.name = .str "") →
        uploadPerson schema remote r = (false, "이름이 없는 데이터입니다."))
    ∧ (∀ (schema : List (String × String)) (r : RawRecord) (s : String),
        r.name = .str s → s ≠ "" →
        (webappBuildProps r schema).isSome = true)
    ∧ (∀ (r : RawRecord) (schema : List (String × String)) (v : PropValue),
        isTruthy (fvGet r.name) = false →
        ("이름", v) ∉ part000Props r schema) := by
  refine ⟨?_, ?_, ?_⟩
  · intro schema remote r h
    have hfalse : isTruthy (fvGet r.name) = false := by
      rcases h with h | h | h <;> rw [h] <;> rfl
    unfold uploadPerson
    rw [hfalse]
    simp
  · intro schema r s hname _
    unfold webappBuildProps
    rw [hname]
    rfl
  · intro r schema v hfalse h
    rcases mem_part000Props.mp h with h|h|h|h|h|h|h|h|h|h|h
    · rcases mem_optEntry.mp h with ⟨t, ht, hne, _⟩
      rw [ht] at hfalse
      simp [isTruthy] at hfalse
      exact hne hfalse
    · exact absurd (key_of_mem_optEntry h) (by decide)
    · exact absurd (key_of_mem_optEntry h) (by decide)
    · exact absurd (key_of_mem_selectEntry h) (by decide)
    · exact absurd (key_of_mem_selectEntry h) (by decide)
    · exact absurd (key_of_mem_richEntry h) (by decide)
    · exact absurd (key_of_mem_richEntry h) (by decide)
    · exact absurd (key_of_mem_richEntry h) (by decide)
    · exact absurd (key_of_mem_richEntry h) (by decide)
    · exact absurd (key_of_mem_richEntry h) (by decide)
    · exact absurd (key_of_mem_richEntry h) (by decide)

/-- C1, witness — the webapp failure result on a concrete nameless
record, and the unnamed file's mapper omitting the title on the same
record. -/
theorem c1_name_validation_witness :
    uploadPerson [] (fun _ => Except.ok ())
        ({ email := .str "a@b" } : RawRecord)
      = (false, "이름이 없는 데이터입니다.")
    ∧ ("이름", PropValue.title "a@b")
        ∉ part000Props ({ email := .str "a@b" } : RawRecord) [] :=
  ⟨c1_name_validation.1 [] (fun _ => Except.ok ()) _ (Or.inl rfl),
    c1_name_validation.2.2 ({ email := .str "a@b" } : RawRecord) []
      (PropValue.title "a@b") (by decide)⟩

/-- C7, counterexample — the claim says the connection failure is not
caught internally and propagates; in the code the whole body of
`test_connection` sits in `try/except Exception`, so a raised transport
error is converted to a returned `(False, message)` pair and nothing
propagates. -/
theorem c7_counterexample :
    testConnection (.error "boom") = .ok ((false, "연결 실패: boom"), none)
      ∧ testConnection (.error "boom") ≠ .error "boom" :=
  ⟨rfl, fun h => Except.noConfusion h⟩

/-- C7, amended — the Schema Introspector's retrieval failure is caught
internally: for every underlying transport error the operation returns a
`(False, message)` pair whose message surfaces the stringified error
(and leaves the cached schema unset), rather than propagating; a
successful retrieval returns the success pair and caches the schema. -/
theorem c7_connection_failure :
    (∀ e : String,
        testConnection (.error e) = .ok ((false, "연결 실패: " ++ e), none))
    ∧ (∀ info : List (String × String),
        testConnection (.ok info) = .ok ((true, "연결 성공!"), some info)) :=
  ⟨fun _ => rfl, fun _ => rfl⟩

/-- C8, counterexample — the claim says the failure message is the
stringified underlying error; the code prefixes it
(`"업로드 실패: " + str(e)`), and the validation failure for a nameless
record is a fixed message with no underlying error at all. -/
theorem c8_counterexample :
    uploadPerson [] (fun _ => Except.error "boom")
        ({ name := .str "A" } : RawRecord)
      = (false, "업로드 실패: boom")
    ∧ ("업로드 실패: boom" : String) ≠ "boom"
    ∧ uploadPerson [] (fun _ => Except.ok ())
        ({ email := .str "x" } : RawRecord)
      = (false, "이름이 없는 데이터입니다.") := by
  decide

/-- C8, amended — the Record Uploader never raises past its boundary:
for every record and every remote behaviour it returns a
`(success, message)` pair, where a falsy name gives the fixed
missing-name failure, a successful remote call gives a confirmation
containing the record's display name, and a raised remote error `e`
gives a failure whose message contains the stringified error after the
`"업로드 실패: "` prefix. -/
theorem c8_uploader_boundary (schema : List (String × String))
    (remote : List (String × PropValue) → Except String Unit)
    (r : RawRecord) :
    (isTruthy (fvGet r.name) = false →
        uploadPerson schema remote r = (false, "이름이 없는 데이터입니다."))
    ∧ (∀ s, r.name = .str s → s ≠ "" →
        (remote (webappProps r schema) = Except.ok () →
          uploadPerson schema remote r
            = (true, "\x27" ++ s ++ "\x27 업로드 완료"))
        ∧ (∀ e, remote (webappProps r schema) = Except.error e →
          uploadPerson schema remote r = (false, "업로드 실패: " ++ e))) := by
  constructor
  · intro h
    unfold uploadPerson
    rw [h]
    simp
  · intro s hname hne
    constructor
    · intro hok
      unfold uploadPerson webappBuildProps
      rw [hname]
      simp [fvGet, isTruthy, fvToStr, hne, hok]
    · intro e herr
      unfold uploadPerson webappBuildProps
      rw [hname]
      simp [fvGet, isTruthy, fvToStr, hne, herr]

/-- C8, witness — both remote behaviours at a concrete record. -/
theorem c8_uploader_boundary_witness :
    uploadPerson [] (fun _ => Except.ok ())
        ({ name := .str "B" } : RawRecord)
      = (true, "\x27" ++ "B" ++ "\x27 업로드 완료")
    ∧ uploadPerson [] (fun _ => Except.error "down")
        ({ name := .str "B" } : RawRecord)
      = (false, "업로드 실패: " ++ "down") :=
  ⟨((c8_uploader_boundary [] (fun _ => Except.ok ())
      ({ name := .str "B" } : RawRecord)).2 "B" rfl (by decide)).1 rfl,
    ((c8_uploader_boundary [] (fun _ => Except.error "down")
      ({ name := .str "B" } : RawRecord)).2 "B" rfl (by decide)).2 "down" rfl⟩

/-- What the batch loop computes: the incoming count plus the number of
successes among the remaining per-record outcomes, and the incoming log
extended by those outcomes in order. -/
theorem batchLoop_spec (schema : List (String × String))
    (remoteAt : Nat → List (String × PropValue) → Except String Unit)
    (l : List RawRecord) :
    ∀ (i cnt : Nat) (acc : List (Bool × String)),
      batchLoop schema remoteAt i l cnt acc
        = (cnt + (resultsFrom schema remoteAt i l).countP (fun p => p.1),
            acc ++ resultsFrom schema remoteAt i l) := by
  induction l with
  | nil =>
    intro i cnt acc
    simp [batchLoop, resultsFrom]
  | cons r rest ih =>
    intro i cnt acc
    simp only [batchLoop, resultsFrom]
    rw [ih]
    simp only [List.countP_cons, List.append_assoc, List.singleton_append,
      Prod.mk.injEq]
    constructor
    · by_cases h : (uploadPerson schema (remoteAt i) r).1
      · simp [h]
        omega
      · simp [h]
    · trivial

/-- One outcome per remaining record. -/
theorem resultsFrom_length (schema : List (String × String))
    (remoteAt : Nat → List (String × PropValue) → Except String Unit)
    (l : List RawRecord) :
    ∀ i, (resultsFrom schema remoteAt i l).length = l.length := by
  induction l with
  | nil => intro i; rfl
  | cons r rest ih =>
    intro i
    simp [resultsFrom, ih]

/-- The `j`-th outcome is the upload of the `j`-th remaining record with
the remote behaviour of slot `i + j`. -/
theorem resultsFrom_getD (schema : List (String × String))
    (remoteAt : Nat → List (String × PropValue) → Except String Unit)
    (l : List RawRecord) :
    ∀ i j, j < l.length →
      (resultsFrom schema remoteAt i l).getD j (false, "")
        = uploadPerson schema (remoteAt (i + j)) (l.getD j {}) := by
  induction l with
  | nil =>
    intro i j h
    exact absurd h (by simp)
  | cons r rest ih =>
    intro i j h
    cases j with
    | zero => simp [resultsFrom]
    | succ j =>
      simp only [resultsFrom, List.getD_cons_succ]
      rw [ih (i + 1) j (by simpa using h)]
      have : i + 1 + j = i + (j + 1) := by omega
      rw [this]

/-- C3 — for every input sequence of records, the batch loop yields
exactly one `(success, message)` entry per record, in input order
(entry `j` is the outcome of uploading record `j`, so a failing record
is recorded and never aborts later records), and its aggregate success
count equals the number of success entries in the result sequence. -/
theorem c3_batch_result (schema : List (String × String))
    (remoteAt : Nat → List (String × PropValue) → Except String Unit)
    (records : List RawRecord) :
    (runBatch schema remoteAt records).2.length = records.length
    ∧ (∀ j, j < records.length →
        (runBatch schema remoteAt records).2.getD j (false, "")
          = uploadPerson schema (remoteAt j) (records.getD j {}))
    ∧ (runBatch schema remoteAt records).1
        = (runBatch schema remoteAt records).2.countP (fun p => p.1) := by
  have hrun : runBatch schema remoteAt records
      = ((resultsFrom schema remoteAt 0 records).countP (fun p => p.1),
          resultsFrom schema remoteAt 0 records) := by
    unfold runBatch
    rw [batchLoop_spec]
    simp
  refine ⟨?_, ?_, ?_⟩
  · rw [hrun]
    exact resultsFrom_length schema remoteAt records 0
  · intro j hj
    rw [hrun]
    have h := resultsFrom_getD schema remoteAt records 0 j hj
    rw [Nat.zero_add] at h
    exact h
  · rw [hrun]

/-- C3, witness — a two-record batch whose second record lacks a name:
entry 1 is the missing-name failure while entry 0 is unaffected. -/
theorem c3_batch_result_witness :
    1 < ([({ name := .str "A" } : RawRecord), { email := .str "x" }]).length
    ∧ (runBatch [] (fun _ _ => Except.ok ())
          [({ name := .str "A" } : RawRecord), { email := .str "x" }]).2.getD 1
          (false, "")
        = uploadPerson [] ((fun _ _ => Except.ok ()) 1)
            (([({ name := .str "A" } : RawRecord),
                { email := .str "x" }]).getD 1 {}) :=
  ⟨by decide,
    (c3_batch_result [] (fun _ _ => Except.ok ())
      [({ name := .str "A" } : RawRecord), { email := .str "x" }]).2.1 1
      (by decide)⟩

end JsonNotion
